import Mathlib

/-!
Verification of the SiegeUp ServerLauncher agent (launcher.js).

The definitions below are a shallow embedding of the relevant parts of
launcher.js.  JavaScript `Map` objects (the `children` and `serverErrors`
maps) are modelled as association lists kept in insertion order, mirroring
the enumeration order of a JS `Map`.  Machine-level details that the claims
do not depend on (actual sockets, actual processes) are modelled by explicit
oracle records describing the outcomes the code observes.
-/

namespace ServerLauncher

/-- A desired server entry of `settings.servers` (launcher.js /launch handler
fields: name, visible, version, port, args, run). -/
structure DesiredServer where
  name : String
  visible : Bool
  version : String
  port : Nat
  args : List String
  run : Bool
deriving Repr, DecidableEq

/-- A live child process as tracked by the `children` map.  `pid` is
`child.pid` (absent when the OS spawn failed synchronously).  `spawnVersion`
is ghost state recording `s.version` of the desired server the reconciler
spawned this child from (launcher.js line 227: the executable is resolved
under `BUILDS_DIR/s.version`). -/
structure ChildProc where
  pid : Option Nat
  spawnVersion : String
deriving Repr, DecidableEq

/-- JS `Map.prototype.has`. -/
def mapHas (m : List (Nat × α)) (k : Nat) : Bool :=
  m.any (fun e => e.1 == k)

/-- JS `Map.prototype.get` (undefined becomes `none`). -/
def mapGet (m : List (Nat × α)) (k : Nat) : Option α :=
  (m.find? (fun e => e.1 == k)).map (fun e => e.2)

/-- JS `Map.prototype.delete`. -/
def mapDelete (m : List (Nat × α)) (k : Nat) : List (Nat × α) :=
  m.filter (fun e => e.1 != k)

/-- JS `Map.prototype.set`: updates in place when the key exists, otherwise
appends (JS maps keep insertion order). -/
def mapSet (m : List (Nat × α)) (k : Nat) (v : α) : List (Nat × α) :=
  if m.any (fun e => e.1 == k) then
    m.map (fun e => if e.1 == k then (k, v) else e)
  else
    m ++ [(k, v)]

/-! ## The /purge handler (launcher.js lines 377-401) -/

/-- An entry of the builds-directory listing (`fs.readdirSync(BUILDS_DIR)`
plus the `statSync(...).isDirectory()` test of the handler). -/
structure DirEntry where
  name : String
  isDir : Bool
deriving Repr, DecidableEq

/-- The running-versions snapshot the /purge handler computes
(launcher.js lines 378-383):

  Array.from(children.values()).map((proc, i) => settings.servers[i]?.version).filter(Boolean)

Note that the i-th *enumeration index* of the children map is used to index
`settings.servers`; the child's own spawn version is never consulted.
`filter(Boolean)` drops `undefined` (index out of range) and the empty
string. -/
def runningVersionsSnapshot (children : List (Nat × ChildProc))
    (servers : List DesiredServer) : List String :=
  (List.range children.length).filterMap (fun i =>
    match servers.get? i with
    | some s => if s.version = "" then none else some s.version
    | none => none)

/-- The /purge handler body (launcher.js lines 385-398): every
builds-directory entry that is a directory and whose name is not in the
snapshot is removed; the returned list is `purged` in listing order. -/
def purgeHandler (children : List (Nat × ChildProc))
    (servers : List DesiredServer) (dirs : List DirEntry) : List String :=
  dirs.filterMap (fun d =>
    if d.isDir && !(runningVersionsSnapshot children servers).contains d.name then
      some d.name
    else
      none)

/-! ## shutdownChild (launcher.js lines 135-157) -/

/-- POSIX signal sent by `child.kill`. -/
inductive Sig where
  | term
  | kill
deriving Repr, DecidableEq

/-- Outcomes of the port probes performed during one `shutdownChild` call:
`gracefulFree` is the result of `waitForPortToBeFree(port, 2000)` after
SIGTERM, `forcedFree` the result of `waitForPortToBeFree(port, 1000)` after
SIGKILL (only consulted when the graceful wait failed), and `finalFree` the
result of the final `isPortFree(port)` probe. -/
structure ShutdownEnv where
  gracefulFree : Bool
  forcedFree : Bool
  finalFree : Bool
deriving Repr, DecidableEq

/-- Observable trace of one `shutdownChild` call: signals sent in order, the
bounded waits performed (timeout budgets in ms), and whether the children
map entry was removed. -/
structure ShutdownTrace where
  signalsSent : List Sig
  waitsMs : List Nat
  removed : Bool
deriving Repr, DecidableEq

/-- launcher.js lines 135-157.  `child` is the caller's `children.get(port)`
value.  `if (!child?.pid) return;` exits early when there is no child or it
has no pid.  Otherwise: SIGTERM, wait up to 2000 ms for the port to be
free; if still in use, SIGKILL and wait up to 1000 ms; finally probe
`isPortFree` once more and delete the map entry exactly when that final
probe reports the port free. -/
def shutdownChild (children : List (Nat × ChildProc)) (port : Nat)
    (child : Option ChildProc) (env : ShutdownEnv) :
    List (Nat × ChildProc) × ShutdownTrace :=
  match child with
  | none => (children, ⟨[], [], false⟩)
  | some c =>
    if c.pid.isNone then (children, ⟨[], [], false⟩)
    else
      let sigs := if env.gracefulFree then [Sig.term] else [Sig.term, Sig.kill]
      let waits := if env.gracefulFree then [2000] else [2000, 1000]
      if env.finalFree then
        (mapDelete children port, ⟨sigs, waits, true⟩)
      else
        (children, ⟨sigs, waits, false⟩)

/-! ## The /restart handler (launcher.js lines 361-375) -/

/-- The HTTP responses the /restart handler can write. -/
inductive RestartResp where
  | notFound
  | okNotRunning
  | okRestarted
deriving Repr, DecidableEq

/-- launcher.js lines 361-375: the list of `res.status(404).json` /
`res.json` calls the handler performs, in order.  When the port is in the
desired set but no child is running, the `else` branch writes the
"was not running" success response and then falls through to the final
`res.json({ok:true, restarted:true})`, writing a second response. -/
def restartHandler (settingsServers : List DesiredServer)
    (children : List (Nat × ChildProc)) (port : Nat) : List RestartResp :=
  match settingsServers.find? (fun s => s.port == port) with
  | none => [RestartResp.notFound]
  | some _ =>
    if mapHas children port then
      [RestartResp.okRestarted]
    else
      [RestartResp.okNotRunning, RestartResp.okRestarted]

/-! ## Executable discovery and spawning (launcher.js lines 111-133, 241-268) -/

/-- `path.join(dir, name)` for a simple directory/entry pair (no
normalization is needed for the paths the launcher builds). -/
def pathJoin (d n : String) : String := d ++ ("/") ++ n

/-- `path.dirname` for the slash-separated paths the launcher builds:
everything before the last separator, or the POSIX default when there is no
separator. -/
def dirname (p : String) : String :=
  let parts := p.splitOn ("/")
  if parts.length ≤ 1 then (".") else String.intercalate ("/") parts.dropLast

/-- `name.includes(sub)` of JS strings. -/
def containsSub (s sub : String) : Bool :=
  (List.range (s.length + 1)).any (fun i => sub.toList.isPrefixOf (s.toList.drop i))

/-- The file test of `findExecutable` (launcher.js lines 120-123): name does
not contain "UnityCrashHandler" and ends with ".exe" or ".x86_64". -/
def isExecutableName (n : String) : Bool :=
  !(containsSub n ("UnityCrashHandler")) &&
    (n.endsWith (".exe") || n.endsWith (".x86_64"))

/-- A filesystem entry as seen by `fs.readdirSync(dir, withFileTypes)`. -/
inductive FsEntry where
  | file (name : String)
  | dir (name : String) (entries : List FsEntry)
deriving Repr

/-- `findExecutable` (launcher.js lines 111-133): depth-first walk in
listing order; a directory entry is recursed into first, a file entry is
returned when it passes `isExecutableName`. -/
def findExecutableIn (base : String) : List FsEntry → Option String
  | [] => none
  | FsEntry.dir n es :: rest =>
    match findExecutableIn (pathJoin base n) es with
    | some r => some r
    | none => findExecutableIn base rest
  | FsEntry.file n :: rest =>
    if isExecutableName n then some (pathJoin base n)
    else findExecutableIn base rest

/-- The `gameArgs` array built by the reconciler (launcher.js lines
241-247). -/
def gameArgs (s : DesiredServer) : List String :=
  [("-batchmode"), ("-nographics"), ("-logFile"), ("-"),
   ("--server-port"), toString s.port] ++ s.args

/-- The `gdbArgs` array (launcher.js lines 249-258): gdb batch options,
then `--args` followed by the executable and its argument vector. -/
def gdbArgs (exe : String) (s : DesiredServer) : List String :=
  [("-batch"), ("-return-child-result"),
   ("-ex"), ("handle SIGPWR nostop noprint"),
   ("-ex"), ("handle SIGXCPU nostop noprint"),
   ("-ex"), ("run"),
   ("-ex"), ("thread apply all bt"),
   ("-ex"), ("quit"),
   ("--args"), exe] ++ gameArgs s

/-- One `spawn` invocation: command, argument vector and working
directory. -/
structure SpawnCall where
  cmd : String
  argv : List String
  cwd : String
deriving Repr, DecidableEq

/-- The `spawn` call the reconciler performs for a desired server `s` whose
executable resolved to `exe` (launcher.js lines 260-268):
`spawn('gdb', gdbArgs, { cwd: path.dirname(exe), ... })`. -/
def spawnCallFor (exe : String) (s : DesiredServer) : SpawnCall :=
  { cmd := ("gdb"), argv := gdbArgs exe s, cwd := dirname exe }

/-- The canonical child argument vector in the words of the spec:
`-batchmode, -nographics, -logFile, -, --server-port, <port>, <...args>`. -/
def canonicalChildArgs (s : DesiredServer) : List String :=
  [("-batchmode"), ("-nographics"), ("-logFile"), ("-"),
   ("--server-port"), toString s.port] ++ s.args

/-! ## Log rotation (launcher.js lines 178-195 and 233-239) -/

/-- A file of a per-port log directory: its name and its mtime (modelled as
a Nat timestamp). -/
structure LogFile where
  name : String
  mtime : Nat
deriving Repr, DecidableEq

/-- The sort order of `cleanUpLogDirectory`: newest first (comparator
`(a, b) => b.time - a.time`). -/
def newerEq (a b : LogFile) : Prop := b.mtime ≤ a.mtime

instance : DecidableRel newerEq := fun a b => Nat.decLe b.mtime a.mtime

instance : IsTotal LogFile newerEq :=
  ⟨fun a b => (Nat.le_total a.mtime b.mtime).symm⟩

instance : IsTrans LogFile newerEq :=
  ⟨fun _ _ _ h1 h2 => Nat.le_trans h2 h1⟩

/-- The `.log` filter of `cleanUpLogDirectory` (launcher.js line 182):
`f.endsWith('.log')`, expressed as a suffix test on the character list. -/
def isLogFile (f : LogFile) : Bool :=
  (".log").toList.isSuffixOf f.name.toList

/-- The `.log` files of a directory listing. -/
def logFilesOf (files : List LogFile) : List LogFile :=
  files.filter isLogFile

/-- The listing sorted newest-first (launcher.js line 184).  JS `sort` is
stable; for a total preorder every stable sort produces the same list, so
the stable `insertionSort` models it exactly. -/
def sortByMtimeDesc (files : List LogFile) : List LogFile :=
  List.insertionSort newerEq files

/-- The files `cleanUpLogDirectory` deletes (launcher.js lines 186-191):
when more than 10 `.log` files exist, all of them beyond the newest 10. -/
def rotationDeleted (files : List LogFile) : List LogFile :=
  let sorted := sortByMtimeDesc (logFilesOf files)
  if sorted.length > 10 then sorted.drop 10 else []

/-- Directory contents after `cleanUpLogDirectory`: every listed file whose
name was not unlinked. -/
def cleanUpLogDirectory (files : List LogFile) : List LogFile :=
  files.filter (fun f => !((rotationDeleted files).map LogFile.name).contains f.name)

/-- Directory contents right after the reconciler spawns on the port
(launcher.js lines 233-239): rotation, then the new per-launch log file is
created. -/
def dirAfterSpawn (files : List LogFile) (newLog : LogFile) : List LogFile :=
  cleanUpLogDirectory files ++ [newLog]

/-- Number of `.log` files in a listing. -/
def countLog (files : List LogFile) : Nat :=
  (files.filter isLogFile).length

/-! ## The reconciler tick `serverWatcherLoop` (launcher.js lines 222-293) -/

/-- Per-port environment for one tick: whether `findExecutable` resolves an
executable, whether a filesystem call inside `cleanUpLogDirectory`'s try
block throws, whether the spawn block throws (with the thrown message), and
the pid the OS assigns on success. -/
structure PortEnv where
  exeFound : Bool
  cleanupFsError : Bool
  spawnFails : Bool
  spawnErrMsg : String
  newPid : Nat
deriving Repr, DecidableEq

/-- The volatile state the tick reads and writes: the `children` and
`serverErrors` maps. -/
structure LoopState where
  children : List (Nat × ChildProc)
  serverErrors : List (Nat × String)
deriving Repr, DecidableEq

/-- A JavaScript exception escaping a handler. -/
inductive JsError where
  | referenceError
deriving Repr, DecidableEq

/-- `cleanUpLogDirectory` (launcher.js lines 178-195) as the tick observes
it.  The try block swallows filesystem errors, but its catch handler (line
193) evaluates the template literal `Error clean up log directory for port
$s.port` in which the identifier `s` is not bound anywhere in the function
(the loop variable `s` of `serverWatcherLoop` is not in scope here), so the
catch itself throws a ReferenceError, which rejects the async function's
promise.  Hence a filesystem error inside the try block surfaces as a
ReferenceError rejection. -/
def cleanUpLogDirectoryRun (fsError : Bool) : Except JsError Unit :=
  if fsError then Except.error JsError.referenceError else Except.ok ()

/-- The per-server body of the tick (launcher.js lines 223-292): skip when a
child exists or `run` is false; record a LastError and continue when the
executable is missing; `await cleanUpLogDirectory(logDir)` (outside any
try, so its rejection aborts the whole tick); then the try block that
spawns, registers the child, or records `Launcher Error: ...` on a throw.
A successful spawn registers the child and leaves `serverErrors`
untouched. -/
def processServer (env : Nat → PortEnv) (st : LoopState) (s : DesiredServer) :
    Except JsError LoopState :=
  if mapHas st.children s.port then Except.ok st
  else if !s.run then Except.ok st
  else if !(env s.port).exeFound then
    Except.ok { st with
      serverErrors := mapSet st.serverErrors s.port
        (("Executable not found for \"") ++ s.version ++ ("\"")) }
  else
    match cleanUpLogDirectoryRun (env s.port).cleanupFsError with
    | Except.error e => Except.error e
    | Except.ok _ =>
      if (env s.port).spawnFails then
        Except.ok { st with
          serverErrors := mapSet st.serverErrors s.port
            (("Launcher Error: ") ++ (env s.port).spawnErrMsg) }
      else
        Except.ok { st with
          children := mapSet st.children s.port
            ⟨some (env s.port).newPid, s.version⟩ }

/-- One tick of `serverWatcherLoop`: the servers are processed in list
order; an exception thrown while processing one server rejects the whole
async function, so the remaining servers are not processed in that tick.
Returns the final state together with the escaped exception, if any. -/
def serverWatcherLoop (env : Nat → PortEnv) :
    List DesiredServer → LoopState → LoopState × Option JsError
  | [], st => (st, none)
  | s :: rest, st =>
    match processServer env st s with
    | Except.ok st2 => serverWatcherLoop env rest st2
    | Except.error e => (st, some e)

/-- The `launchError` field of one server's /status entry (launcher.js line
473): `serverErrors.get(port) || null`; an empty string is falsy and also
becomes null. -/
def statusLaunchError (st : LoopState) (port : Nat) : Option String :=
  match mapGet st.serverErrors port with
  | some m => if m = "" then none else some m
  | none => none

/-- The `running` field of one server's /status entry (launcher.js line
470): `!!children.get(port)`. -/
def statusRunning (st : LoopState) (port : Nat) : Bool :=
  mapHas st.children port

/-! ## The /launch handler (launcher.js lines 313-347) -/

/-- One entry of the request's `servers` array; optional fields are absent
JSON fields. -/
structure LaunchServerReq where
  name : Option String
  visible : Option Bool
  version : String
  port : Nat
  args : Option (List String)
  run : Option Bool
deriving Repr, DecidableEq

/-- Field defaulting of the handler (launcher.js lines 324-331):
`name: s.name || Server i+1` (the empty string is falsy),
`visible: s.visible ?? false`, `args: s.args || []` (an empty array is
truthy and kept), `run: s.run ?? true`. -/
def applyDefaults (i : Nat) (s : LaunchServerReq) : DesiredServer :=
  { name :=
      match s.name with
      | some n => if n = "" then ("Server ") ++ toString (i + 1) else n
      | none => ("Server ") ++ toString (i + 1)
    visible := s.visible.getD false
    version := s.version
    port := s.port
    args := s.args.getD []
    run := s.run.getD true }

/-- `nextSettings` (launcher.js lines 324-331). -/
def nextSettingsOf (reqs : List LaunchServerReq) : List DesiredServer :=
  reqs.enum.map (fun p => applyDefaults p.1 p.2)

/-- Lookup in `nextMap = new Map(nextSettings.map(s => [s.port, s]))`: a JS
Map constructor keeps the last entry for a repeated key. -/
def nextMapGet (ns : List DesiredServer) (p : Nat) : Option DesiredServer :=
  ns.reverse.find? (fun s => s.port == p)

/-- The `shouldStop` expression (launcher.js line 338):
`!next || next.version !== version || next.args.join(' ') !== args.join(' ') || !next.run`. -/
def shouldStopFor (old : DesiredServer) (next : Option DesiredServer) : Bool :=
  match next with
  | none => true
  | some n =>
    (n.version != old.version) ||
    (String.intercalate (" ") n.args != String.intercalate (" ") old.args) ||
    (!n.run)

/-- The duplicate-port test of the handler (launcher.js lines 319-321):
`ports.length !== new Set(ports).size`, a JS Set holding the distinct
ports. -/
def hasDupePorts (reqs : List LaunchServerReq) : Bool :=
  (reqs.map (fun s => s.port)).length != ((reqs.map (fun s => s.port)).dedup).length

/-- The HTTP response of the /launch handler. -/
inductive LaunchResp where
  | badRequest (msg : String)
  | ok
deriving Repr, DecidableEq

/-- Everything observable about one /launch call: the response, the
in-memory `settings.servers` after the call, the contents of the persisted
settings file after the call, and the ports on which `shutdownChild` was
invoked, in order. -/
structure LaunchOutcome where
  resp : LaunchResp
  settingsAfter : List DesiredServer
  persistedAfter : List DesiredServer
  shutdownCalls : List Nat
deriving Repr, DecidableEq

/-- The /launch handler (launcher.js lines 313-347) for a request whose
body carries a `servers` array.  On a duplicate port it responds 400 before
any shutdown and before any mutation of `settings.servers` or the settings
file.  Otherwise it shuts down every existing server that has a running
child and whose entry is missing/changed in the new map, then installs and
persists `nextSettings` and responds ok. -/
def launchHandler (settingsServers persistedFile : List DesiredServer)
    (children : List (Nat × ChildProc)) (reqs : List LaunchServerReq) :
    LaunchOutcome :=
  if hasDupePorts reqs then
    ⟨LaunchResp.badRequest ("Duplicate port detected in servers array"),
      settingsServers, persistedFile, []⟩
  else
    let ns := nextSettingsOf reqs
    let calls := (settingsServers.filter (fun old =>
      shouldStopFor old (nextMapGet ns old.port) && mapHas children old.port)).map
        (fun old => old.port)
    ⟨LaunchResp.ok, ns, ns, calls⟩

/-! ## The timestamp transform (launcher.js lines 197-220)

The transform receives byte chunks and decodes each chunk in isolation
(`chunk.toString()`, line 203) before any text processing; the byte level
is modelled below by `utf8Decode`, `transformChunkBytes` and
`runTransformBytes`.  The text processing that follows the decode is
modelled on lists of characters.  The bracketed timestamp prepended to
every line is abstracted as an arbitrary prefix `ts` (the claims about the
transform are stated up to the timestamp values). -/

/-- The newline character. -/
def nl : Char := Char.ofNat 10

/-- The effect of `(leftover + chunk).split(newline)` followed by `pop()`:
the first component lists the complete lines (the popped array), the second
is the popped trailing element, the partial line saved for the next chunk.
A JS `split` on a string with k newlines yields k+1 pieces, so the pair is
`(first k pieces, last piece)`. -/
def splitLines : List Char → List (List Char) × List Char
  | [] => ([], [])
  | c :: rest =>
    let r := splitLines rest
    if c = nl then ([] :: r.1, r.2)
    else
      match r.1 with
      | [] => ([], c :: r.2)
      | l :: ls => ((c :: l) :: ls, r.2)

/-- JS `array.join(newline)` on a list of lines. -/
def jsJoinNl : List (List Char) → List Char
  | [] => []
  | [l] => l
  | l :: m :: rest => l ++ [nl] ++ jsJoinNl (m :: rest)

/-- The output pushed for one chunk (launcher.js line 207):
`lines.map(line => timestamp + line).join(newline) + (lines.length > 0 ? newline : '')`. -/
def emitChunkOutput (ts : List Char) (lines : List (List Char)) : List Char :=
  jsJoinNl (lines.map (fun l => ts ++ l)) ++
    (if 0 < lines.length then [nl] else [])

/-- The text processing of one `transform(chunk)` call after the chunk has
been decoded (launcher.js lines 199-210): split the leftover plus the
decoded chunk, save the trailing partial line, emit the complete lines.
Returns (pushed output, new leftover).  The per-chunk decode itself is
`transformChunkBytes` below. -/
def transformChunk (ts leftover chunk : List Char) : List Char × List Char :=
  let r := splitLines (leftover ++ chunk)
  (emitChunkOutput ts r.1, r.2)

/-- Repeated `transform` calls threading the leftover state, starting from
the given leftover. Returns (concatenated pushed output, final leftover). -/
def runChunks (ts : List Char) : List Char → List (List Char) → List Char × List Char
  | lo, [] => ([], lo)
  | lo, c :: cs =>
    let o := transformChunk ts lo c
    let rest := runChunks ts o.2 cs
    (o.1 ++ rest.1, rest.2)

/-- The `flush` callback (launcher.js lines 211-218): a nonempty leftover is
written as one final timestamped line; an empty (or never initialized)
leftover produces nothing. -/
def flushOutput (ts lo : List Char) : List Char :=
  if lo = [] then [] else ts ++ lo ++ [nl]

/-- The whole life of one transform stream: every chunk in order, then the
close-time flush. -/
def runTransform (ts : List Char) (chunks : List (List Char)) : List Char :=
  (runChunks ts [] chunks).1 ++ flushOutput ts (runChunks ts [] chunks).2

/-- The output the spec describes for the whole input: each complete line
prefixed with the timestamp and terminated by a newline, then the trailing
partial line (when nonempty) as one final timestamped line. -/
def specLineOutput (ts input : List Char) : List Char :=
  ((splitLines input).1.map (fun l => ts ++ l ++ [nl])).flatten ++
    (if (splitLines input).2 = [] then []
     else ts ++ (splitLines input).2 ++ [nl])

/-- How `splitLines` results compose under concatenation of the inputs: the
first complete line of the right part (if any) is completed by the left
part's trailing partial line. -/
def joinSplit (p q : List (List Char) × List Char) : List (List Char) × List Char :=
  match q.1 with
  | [] => (p.1, p.2 ++ q.2)
  | l :: ls => (p.1 ++ (p.2 ++ l) :: ls, q.2)

/-! ### Per-chunk UTF-8 decoding

`chunk.toString()` decodes the chunk's bytes as UTF-8 with the WHATWG
decoder (what Node's Buffer uses): every maximal invalid subpart becomes
one U+FFFD replacement character, and a truncated sequence at the end of
the chunk also becomes one replacement character, because each chunk is
decoded in isolation.  Bytes are modelled as Nat values below 256; the
WHATWG bit operations are written arithmetically (for a continuation byte
b in 0x80..0xBF, b AND 0x3F equals b - 0x80, and codePoint shifted left by
6 OR-ed with it equals codePoint * 64 + (b - 0x80); for a lead byte the
masked low bits equal the byte minus the range base). -/

/-- U+FFFD. -/
def replacementChar : Char := Char.ofNat 0xFFFD

/-- One byte examined with no sequence pending (WHATWG: bytes needed = 0):
either a character is emitted (ASCII, or U+FFFD for an invalid lead), or a
pending state (code point so far, continuation bytes needed, and the
lower/upper bounds for the next byte) is entered. -/
def utf8Start (b : Nat) : Sum Char (Nat × Nat × Nat × Nat) :=
  if b < 0x80 then Sum.inl (Char.ofNat b)
  else if 0xC2 ≤ b ∧ b ≤ 0xDF then Sum.inr (b - 0xC0, 1, 0x80, 0xBF)
  else if 0xE0 ≤ b ∧ b ≤ 0xEF then
    Sum.inr (b - 0xE0, 2,
      if b = 0xE0 then 0xA0 else 0x80, if b = 0xED then 0x9F else 0xBF)
  else if 0xF0 ≤ b ∧ b ≤ 0xF4 then
    Sum.inr (b - 0xF0, 3,
      if b = 0xF0 then 0x90 else 0x80, if b = 0xF4 then 0x8F else 0xBF)
  else Sum.inl replacementChar

/-- The WHATWG UTF-8 decode loop.  The first argument is the pending
state, if any.  An invalid continuation byte emits U+FFFD and reprocesses
that byte in the start state (WHATWG "prepend byte to stream"; the one
reprocessing step is inlined so the recursion stays structural); a chunk
ending mid-sequence emits one U+FFFD. -/
def utf8DecodeAux : Option (Nat × Nat × Nat × Nat) → List Nat → List Char
  | none, [] => []
  | some _, [] => [replacementChar]
  | none, b :: rest =>
    match utf8Start b with
    | Sum.inl ch => ch :: utf8DecodeAux none rest
    | Sum.inr st => utf8DecodeAux (some st) rest
  | some (cp, needed, lower, upper), b :: rest =>
    if lower ≤ b ∧ b ≤ upper then
      if needed = 1 then
        Char.ofNat (cp * 64 + (b - 0x80)) :: utf8DecodeAux none rest
      else
        utf8DecodeAux (some (cp * 64 + (b - 0x80), needed - 1, 0x80, 0xBF)) rest
    else
      replacementChar ::
        (match utf8Start b with
         | Sum.inl ch => ch :: utf8DecodeAux none rest
         | Sum.inr st => utf8DecodeAux (some st) rest)

/-- `chunk.toString()`: the chunk's bytes decoded as UTF-8, each chunk in
isolation. -/
def utf8Decode (bytes : List Nat) : List Char :=
  utf8DecodeAux none bytes

/-- One `transform(chunk)` call on the byte chunk the stream actually
delivers (launcher.js lines 199-210): the chunk is decoded in isolation by
`chunk.toString()` and the decoded text is processed against the saved
leftover. -/
def transformChunkBytes (ts leftover : List Char) (chunk : List Nat) :
    List Char × List Char :=
  transformChunk ts leftover (utf8Decode chunk)

/-- Repeated `transform` calls on byte chunks, threading the leftover. -/
def runChunksBytes (ts : List Char) : List Char → List (List Nat) → List Char × List Char
  | lo, [] => ([], lo)
  | lo, c :: cs =>
    let o := transformChunkBytes ts lo c
    let rest := runChunksBytes ts o.2 cs
    (o.1 ++ rest.1, rest.2)

/-- The whole life of one transform stream fed byte chunks: every chunk in
order, then the close-time flush. -/
def runTransformBytes (ts : List Char) (chunks : List (List Nat)) : List Char :=
  (runChunksBytes ts [] chunks).1 ++ flushOutput ts (runChunksBytes ts [] chunks).2

/-- The UTF-8 encoding of one character (used to express which byte
partitions respect character boundaries). -/
def utf8EncodeChar (c : Char) : List Nat :=
  if c.toNat < 0x80 then [c.toNat]
  else if c.toNat < 0x800 then
    [0xC0 + c.toNat / 64, 0x80 + c.toNat % 64]
  else if c.toNat < 0x10000 then
    [0xE0 + c.toNat / 4096, 0x80 + (c.toNat / 64) % 64, 0x80 + c.toNat % 64]
  else
    [0xF0 + c.toNat / 262144, 0x80 + (c.toNat / 4096) % 64,
     0x80 + (c.toNat / 64) % 64, 0x80 + c.toNat % 64]

/-- The UTF-8 encoding of a character sequence. -/
def utf8Encode (cs : List Char) : List Nat :=
  (cs.map utf8EncodeChar).flatten

/-! ## Theorems -/

/-- Claim C1: the /purge handler purges the directory "v2" although the one
live child in the children map was spawned from version "v2".  The handler
pairs the children-map enumeration index 0 with `settings.servers[0]`
(version "v1", a stopped server), so its running-versions snapshot misses
"v2" and the build directory of the running version is removed. -/
theorem purge_removes_version_of_live_child :
    purgeHandler [(9002, ⟨some 111, ("v2")⟩)]
      [⟨("Server 1"), false, ("v1"), 9001, [], false⟩,
       ⟨("Server 2"), false, ("v2"), 9002, [], true⟩]
      [⟨("v1"), true⟩, ⟨("v2"), true⟩] = [("v2")] ∧
    ("v2") ∈ ([((9002 : Nat), (⟨some 111, ("v2")⟩ : ChildProc))].map
      (fun e => e.2.spawnVersion)) := by
  decide

/-- Claim C2: for every desired server the reconciler spawns `gdb` whose
argument vector, after `--args` and the executable path, is exactly the
canonical child argument vector `-batchmode, -nographics, -logFile, -,
--server-port, <port>, <...args>`, and the working directory of the spawn
is the directory containing the executable. -/
theorem spawn_canonical_argv (s : DesiredServer) (exe : String) :
    (spawnCallFor exe s).cmd = ("gdb") ∧
    (spawnCallFor exe s).cwd = dirname exe ∧
    ∃ gdbOpts, ("--args") ∉ gdbOpts ∧
      (spawnCallFor exe s).argv =
        gdbOpts ++ ("--args") :: exe :: canonicalChildArgs s := by
  refine ⟨rfl, rfl,
    [("-batch"), ("-return-child-result"),
     ("-ex"), ("handle SIGPWR nostop noprint"),
     ("-ex"), ("handle SIGXCPU nostop noprint"),
     ("-ex"), ("run"),
     ("-ex"), ("thread apply all bt"),
     ("-ex"), ("quit")], ?_, ?_⟩
  · decide
  · simp [spawnCallFor, gdbArgs, gameArgs, canonicalChildArgs]

/-- Claim C4: a filesystem error inside `cleanUpLogDirectory` for the first
server aborts the whole reconciler tick (the catch handler's reference to
the unbound identifier `s` raises a ReferenceError and the loop awaits the
call outside any try), so the second server is never processed: the final
state still has no child and no error for port 9002. -/
theorem cleanup_error_aborts_tick :
    serverWatcherLoop
      (fun p => if p = 9001 then ⟨true, true, false, (""), 11⟩
                else ⟨true, false, false, (""), 12⟩)
      [⟨("A"), false, ("v1"), 9001, [], true⟩,
       ⟨("B"), false, ("v1"), 9002, [], true⟩]
      ⟨[], []⟩ =
      (⟨[], []⟩, some JsError.referenceError) := by
  decide

/-- Claim C5, counterexample: port 9001 has a recorded LastError; a tick
then spawns its child successfully, yet the status snapshot still reports
the stale error message instead of null while the child runs. -/
theorem stale_error_after_successful_spawn :
    statusRunning
      ((serverWatcherLoop (fun _ => ⟨true, false, false, (""), 42⟩)
        [⟨("Server 1"), false, ("v1"), 9001, [], true⟩]
        ⟨[], [(9001, ("Executable not found for \"v1\""))]⟩).1) 9001 = true ∧
    statusLaunchError
      ((serverWatcherLoop (fun _ => ⟨true, false, false, (""), 42⟩)
        [⟨("Server 1"), false, ("v1"), 9001, [], true⟩]
        ⟨[], [(9001, ("Executable not found for \"v1\""))]⟩).1) 9001 =
      some ("Executable not found for \"v1\"") := by
  decide

/-- Claim C5, amended: a successful spawn registers the child but leaves
the `serverErrors` map untouched; the recorded LastError persists until
overwritten by a later failure, so status keeps reporting the stale
message. -/
theorem successful_spawn_keeps_last_error (env : Nat → PortEnv)
    (st : LoopState) (s : DesiredServer)
    (h1 : mapHas st.children s.port = false)
    (h2 : s.run = true)
    (h3 : (env s.port).exeFound = true)
    (h4 : (env s.port).cleanupFsError = false)
    (h5 : (env s.port).spawnFails = false) :
    processServer env st s =
      Except.ok ⟨mapSet st.children s.port ⟨some (env s.port).newPid, s.version⟩,
        st.serverErrors⟩ := by
  simp [processServer, h1, h2, h3, h4, h5, cleanUpLogDirectoryRun]

/-- Witness for the amended Claim C5 theorem at a concrete state. -/
theorem successful_spawn_keeps_last_error_witness :
    processServer (fun _ => ⟨true, false, false, (""), 42⟩)
      ⟨[], [(9001, ("old error"))]⟩
      ⟨("Server 1"), false, ("v1"), 9001, [], true⟩ =
      Except.ok ⟨[(9001, ⟨some 42, ("v1")⟩)], [(9001, ("old error"))]⟩ :=
  successful_spawn_keeps_last_error (fun _ => ⟨true, false, false, (""), 42⟩)
    ⟨[], [(9001, ("old error"))]⟩
    ⟨("Server 1"), false, ("v1"), 9001, [], true⟩
    (by decide) (by decide) (by decide) (by decide) (by decide)

/-- Filtering with a predicate that some member falsifies shrinks the
list strictly. -/
theorem length_filter_lt_of_mem_of_not {α : Type} (p : α → Bool) (l : List α)
    (x : α) (hx : x ∈ l) (hpx : p x = false) :
    (l.filter p).length < l.length := by
  induction l with
  | nil => cases hx
  | cons a t ih =>
    rcases List.mem_cons.mp hx with h | h
    · subst h
      rw [List.filter_cons, hpx]
      exact Nat.lt_succ_of_le (List.length_filter_le p t)
    · have := ih h
      cases hpa : p a <;> simp [List.filter_cons, hpa] <;> omega

/-- In a newest-first sorted list with pairwise-distinct mtimes, membership
in the part beyond index n is exactly having at least n strictly newer
elements. -/
theorem mem_drop_sorted_iff (L : List LogFile) (hs : List.Sorted newerEq L)
    (hn : (L.map LogFile.mtime).Nodup) (n : Nat) (x : LogFile) :
    x ∈ L.drop n ↔
      x ∈ L ∧ n ≤ (L.filter (fun g => x.mtime < g.mtime)).length := by
  induction L generalizing n with
  | nil => simp
  | cons a t ih =>
    rw [List.sorted_cons] at hs
    obtain ⟨ha, hst⟩ := hs
    rw [List.map_cons, List.nodup_cons] at hn
    obtain ⟨hna, hnt⟩ := hn
    cases n with
    | zero => simp
    | succ m =>
      rw [List.drop_succ_cons, ih hst hnt m]
      constructor
      · rintro ⟨hxt, hm⟩
        have hle : x.mtime ≤ a.mtime := ha x hxt
        have hne : x.mtime ≠ a.mtime := by
          intro he
          exact hna (he ▸ List.mem_map_of_mem LogFile.mtime hxt)
        have hlen :
            (List.filter (fun g => decide (x.mtime < g.mtime)) (a :: t)).length =
              (List.filter (fun g => decide (x.mtime < g.mtime)) t).length + 1 := by
          have hlt : x.mtime < a.mtime := by omega
          simp [List.filter_cons, hlt]
        refine ⟨List.mem_cons_of_mem a hxt, ?_⟩
        omega
      · rintro ⟨hxat, hm⟩
        rcases List.mem_cons.mp hxat with he | hxt
        · exfalso
          subst he
          have hfe :
              List.filter (fun g => decide (x.mtime < g.mtime)) t = [] := by
            rw [List.filter_eq_nil_iff]
            intro g hg
            have hgx : g.mtime ≤ x.mtime := ha g hg
            simp only [decide_eq_true_eq]
            omega
          rw [List.filter_cons] at hm
          simp [hfe] at hm
        · have hle : x.mtime ≤ a.mtime := ha x hxt
          have hne : x.mtime ≠ a.mtime := by
            intro he
            exact hna (he ▸ List.mem_map_of_mem LogFile.mtime hxt)
          have hlen :
              (List.filter (fun g => decide (x.mtime < g.mtime)) (a :: t)).length =
                (List.filter (fun g => decide (x.mtime < g.mtime)) t).length + 1 := by
            have hlt : x.mtime < a.mtime := by omega
            simp [List.filter_cons, hlt]
          refine ⟨hxt, ?_⟩
          omega

/-- Claim C3, counterexample: a log directory already holding ten `.log`
files; rotation keeps all ten (none are beyond the newest ten) and the
spawn then opens an eleventh log file, so the claimed bound of ten fails. -/
theorem eleven_logs_after_spawn :
    ¬ (countLog (dirAfterSpawn
      [⟨("a0.log"), 20⟩, ⟨("a1.log"), 19⟩, ⟨("a2.log"), 18⟩, ⟨("a3.log"), 17⟩,
       ⟨("a4.log"), 16⟩, ⟨("a5.log"), 15⟩, ⟨("a6.log"), 14⟩, ⟨("a7.log"), 13⟩,
       ⟨("a8.log"), 12⟩, ⟨("a9.log"), 11⟩]
      ⟨("b.log"), 21⟩) ≤ 10) := by
  decide

/-- Claim C3, amended: after a spawn the directory holds at most eleven
`.log` files (the ten newest kept by rotation plus the newly opened one),
and rotation deletes exactly the `.log` files beyond the ten newest by
mtime: every deleted file has at least ten strictly newer `.log` files, and
every `.log` file with at least ten strictly newer ones is deleted. -/
theorem log_rotation_after_spawn (files : List LogFile) (newLog : LogFile)
    (hmt : ((logFilesOf files).map LogFile.mtime).Nodup) :
    countLog (dirAfterSpawn files newLog) ≤ 11 ∧
    (∀ d ∈ rotationDeleted files,
       d ∈ logFilesOf files ∧
       10 ≤ ((logFilesOf files).filter (fun g => d.mtime < g.mtime)).length) ∧
    (∀ f ∈ logFilesOf files,
       10 ≤ ((logFilesOf files).filter (fun g => f.mtime < g.mtime)).length →
       f ∈ rotationDeleted files) := by
  have hperm : List.Perm (sortByMtimeDesc (logFilesOf files)) (logFilesOf files) :=
    List.perm_insertionSort newerEq (logFilesOf files)
  have hsort : List.Sorted newerEq (sortByMtimeDesc (logFilesOf files)) :=
    List.sorted_insertionSort newerEq (logFilesOf files)
  have hnL : ((sortByMtimeDesc (logFilesOf files)).map LogFile.mtime).Nodup :=
    ((hperm.map LogFile.mtime).nodup_iff).mpr hmt
  refine ⟨?_, ?_, ?_⟩
  · -- the count bound
    have hclean : countLog (cleanUpLogDirectory files) ≤ 10 := by
      rw [countLog, cleanUpLogDirectory, List.filter_comm]
      have hpl :
          ((logFilesOf files).filter
            (fun f => !((rotationDeleted files).map LogFile.name).contains f.name)).length =
          ((sortByMtimeDesc (logFilesOf files)).filter
            (fun f => !((rotationDeleted files).map LogFile.name).contains f.name)).length :=
        (hperm.filter _).length_eq.symm
      rw [show List.filter isLogFile files = logFilesOf files from rfl, hpl]
      have key : ∀ q : LogFile → Bool,
          (∀ g ∈ List.drop 10 (sortByMtimeDesc (logFilesOf files)), q g = false) →
          (List.filter q (sortByMtimeDesc (logFilesOf files))).length ≤ 10 := by
        intro q hq
        conv_lhs => rw [← List.take_append_drop 10 (sortByMtimeDesc (logFilesOf files))]
        rw [List.filter_append]
        rw [show List.filter q (List.drop 10 (sortByMtimeDesc (logFilesOf files))) = []
            from List.filter_eq_nil_iff.mpr (fun a ha => by simp [hq a ha]),
          List.append_nil]
        have hb1 := List.length_filter_le q
          ((sortByMtimeDesc (logFilesOf files)).take 10)
        have hb2 := List.length_take_le 10 (sortByMtimeDesc (logFilesOf files))
        omega
      apply key
      intro g hg
      by_cases hlen : (sortByMtimeDesc (logFilesOf files)).length > 10
      · have hdel : rotationDeleted files = (sortByMtimeDesc (logFilesOf files)).drop 10 := by
          rw [rotationDeleted]
          simp [hlen]
        rw [hdel]
        have hmem := List.mem_map_of_mem LogFile.name hg
        simp only [List.map_drop] at hmem
        simp [List.contains, hmem]
      · rw [List.drop_eq_nil_of_le (by omega)] at hg
        cases hg
    rw [countLog, dirAfterSpawn, List.filter_append, List.length_append]
    have h2 : (List.filter isLogFile [newLog]).length ≤ 1 := by
      cases h : isLogFile newLog <;> simp [List.filter_cons, h]
    have h1 : (List.filter isLogFile (cleanUpLogDirectory files)).length ≤ 10 := hclean
    omega
  · -- every deleted file is beyond the ten newest
    intro d hd
    by_cases hlen : (sortByMtimeDesc (logFilesOf files)).length > 10
    · have hdel : rotationDeleted files = (sortByMtimeDesc (logFilesOf files)).drop 10 := by
        rw [rotationDeleted]
        simp [hlen]
      rw [hdel] at hd
      have hiff := (mem_drop_sorted_iff _ hsort hnL 10 d).mp hd
      refine ⟨hperm.mem_iff.mp hiff.1, ?_⟩
      have := (hperm.filter (fun g => decide (d.mtime < g.mtime))).length_eq
      omega
    · have hdel : rotationDeleted files = [] := by
        rw [rotationDeleted]
        simp [hlen]
      rw [hdel] at hd
      cases hd
  · -- every file beyond the ten newest is deleted
    intro f hf hten
    by_cases hlen : (sortByMtimeDesc (logFilesOf files)).length > 10
    · have hdel : rotationDeleted files = (sortByMtimeDesc (logFilesOf files)).drop 10 := by
        rw [rotationDeleted]
        simp [hlen]
      rw [hdel]
      refine (mem_drop_sorted_iff _ hsort hnL 10 f).mpr ⟨hperm.mem_iff.mpr hf, ?_⟩
      have := (hperm.filter (fun g => decide (f.mtime < g.mtime))).length_eq
      omega
    · exfalso
      have hlt :
          ((logFilesOf files).filter (fun g => decide (f.mtime < g.mtime))).length <
            (logFilesOf files).length :=
        length_filter_lt_of_mem_of_not _ _ f hf (by simp)
      have hlenL : (sortByMtimeDesc (logFilesOf files)).length = (logFilesOf files).length :=
        hperm.length_eq
      omega

/-- Witness for the amended Claim C3 theorem at a concrete directory. -/
theorem log_rotation_after_spawn_witness :
    countLog (dirAfterSpawn [⟨("a.log"), 1⟩] ⟨("b.log"), 2⟩) ≤ 11 :=
  (log_rotation_after_spawn [⟨("a.log"), 1⟩] ⟨("b.log"), 2⟩ (by decide)).1

/-- Claim C6: a /launch request with a repeated port is answered 400 and
changes neither the in-memory server list nor the persisted file, and
performs no shutdowns; a request with pairwise-distinct ports is accepted,
installed and persisted.  The handler's duplicate test (array length versus
number of distinct ports) is exactly non-distinctness. -/
theorem launch_duplicate_rejection (settings persisted : List DesiredServer)
    (children : List (Nat × ChildProc)) (reqs : List LaunchServerReq) :
    (hasDupePorts reqs = true ↔ ¬ (reqs.map (fun s => s.port)).Nodup) ∧
    (if hasDupePorts reqs = true then
      launchHandler settings persisted children reqs =
        ⟨LaunchResp.badRequest ("Duplicate port detected in servers array"),
          settings, persisted, []⟩
     else
      (launchHandler settings persisted children reqs).resp = LaunchResp.ok ∧
      (launchHandler settings persisted children reqs).settingsAfter =
        nextSettingsOf reqs ∧
      (launchHandler settings persisted children reqs).persistedAfter =
        nextSettingsOf reqs) := by
  constructor
  · rw [hasDupePorts, bne_iff_ne]
    constructor
    · intro h hn
      exact h (by rw [hn.dedup])
    · intro hnd h
      have hsub := (reqs.map (fun s => s.port)).dedup_sublist
      have heq := hsub.eq_of_length h.symm
      exact hnd (heq ▸ (reqs.map (fun s => s.port)).nodup_dedup)
  · by_cases h : hasDupePorts reqs = true
    · simp [h, launchHandler]
    · simp [h, launchHandler, eq_false_of_ne_true h]

/-- Claim C7: for a child with a pid, `shutdownChild` sends SIGTERM and
waits up to 2000 ms for the port; only when the port did not become free it
sends SIGKILL and waits up to 1000 ms; and it removes the port from the
children map exactly when the final port-free probe reports the port free,
retaining the entry otherwise. -/
theorem shutdown_two_stage_port_true (children : List (Nat × ChildProc))
    (port pid : Nat) (ver : String) (env : ShutdownEnv) :
    shutdownChild children port (some ⟨some pid, ver⟩) env =
      (if env.finalFree then mapDelete children port else children,
       ⟨if env.gracefulFree then [Sig.term] else [Sig.term, Sig.kill],
        if env.gracefulFree then [2000] else [2000, 1000],
        env.finalFree⟩) := by
  cases hf : env.finalFree <;> cases hg : env.gracefulFree <;>
    simp [shutdownChild, hf, hg]

/-- Claim C8: a /restart for a configured port with no running child writes
two HTTP responses (the "was not running" success response and then the
unconditional final success response), contradicting the one-response
intent. -/
theorem restart_writes_two_responses :
    restartHandler [⟨("Server 1"), false, ("v1"), 9001, [], true⟩] [] 9001 =
      [RestartResp.okNotRunning, RestartResp.okRestarted] ∧
    (restartHandler [⟨("Server 1"), false, ("v1"), 9001, [], true⟩] [] 9001).length ≠ 1 := by
  decide

/-- Claim C10: in /launch, an existing server whose port is kept with the
same version and run=true is stopped exactly when the space-joined argument
strings differ; consequently the distinct vectors consisting of the single
string `a b` versus the two strings `a`, `b` are treated as unchanged and
the running child is not shut down. -/
theorem launch_args_join_comparison :
    (∀ old n : DesiredServer, n.version = old.version → n.run = true →
      (shouldStopFor old (some n) = true ↔
        String.intercalate (" ") n.args ≠ String.intercalate (" ") old.args)) ∧
    ([("a b")] ≠ [("a"), ("b")]) ∧
    launchHandler [⟨("Server 1"), false, ("v1"), 9001, [("a b")], true⟩]
      [⟨("Server 1"), false, ("v1"), 9001, [("a b")], true⟩]
      [(9001, ⟨some 77, ("v1")⟩)]
      [⟨some ("Server 1"), some false, ("v1"), 9001, some [("a"), ("b")], some true⟩] =
      ⟨LaunchResp.ok,
        [⟨("Server 1"), false, ("v1"), 9001, [("a"), ("b")], true⟩],
        [⟨("Server 1"), false, ("v1"), 9001, [("a"), ("b")], true⟩], []⟩ := by
  refine ⟨?_, by decide, by decide⟩
  intro old n hv hr
  simp [shouldStopFor, hv, hr, bne_iff_ne]

/-- Witness for the Claim C10 theorem: two argument vectors with the same
version and run flag but different space-joins make shouldStop true. -/
theorem launch_args_join_comparison_witness :
    shouldStopFor ⟨("S"), false, ("v"), 1, [("x")], true⟩
      (some ⟨("S"), false, ("v"), 1, [("y")], true⟩) = true :=
  (launch_args_join_comparison.1
    ⟨("S"), false, ("v"), 1, [("x")], true⟩
    ⟨("S"), false, ("v"), 1, [("y")], true⟩ rfl rfl).mpr (by decide)

/-- A newline-free input splits into no complete line and itself as
trailing part. -/
theorem splitLines_no_nl (l : List Char) (h : nl ∉ l) : splitLines l = ([], l) := by
  induction l with
  | nil => rfl
  | cons c t ih =>
    rw [List.mem_cons, not_or] at h
    have hc : ¬ c = nl := fun he => h.1 he.symm
    rw [splitLines, ih h.2]
    simp [hc]

/-- The trailing part produced by `splitLines` never contains a newline. -/
theorem splitLines_snd_no_nl (l : List Char) : nl ∉ (splitLines l).2 := by
  induction l with
  | nil => simp [splitLines]
  | cons c t ih =>
    rw [splitLines]
    by_cases hc : c = nl
    · simpa [hc] using ih
    · rcases hp : (splitLines t).1 with _ | ⟨m, ms⟩
      · intro hmem
        simp only [splitLines, hp, if_neg hc] at hmem
        rcases List.mem_cons.mp hmem with he | ht
        · exact hc he.symm
        · exact ih ht
      · simpa [splitLines, hp, hc] using ih

/-- `splitLines` of a concatenation is the composition of the two parts'
results. -/
theorem splitLines_append (a b : List Char) :
    splitLines (a ++ b) = joinSplit (splitLines a) (splitLines b) := by
  induction a with
  | nil =>
    rcases hq : (splitLines b).1 with _ | ⟨m, ms⟩ <;>
      simp [splitLines, joinSplit, hq, Prod.ext_iff]
  | cons c a' ih =>
    by_cases hc : c = nl <;>
      rcases hp : (splitLines a').1 with _ | ⟨m, ms⟩ <;>
      rcases hq : (splitLines b).1 with _ | ⟨l, ls⟩ <;>
      simp [splitLines, joinSplit, hc, hp, hq, ih, Prod.ext_iff]

/-- The output pushed for one chunk is each complete line prefixed and
newline-terminated, concatenated. -/
theorem emitChunkOutput_eq_flat (ts : List Char) (lines : List (List Char)) :
    emitChunkOutput ts lines = (lines.map (fun l => ts ++ l ++ [nl])).flatten := by
  induction lines with
  | nil => rfl
  | cons l rest ih =>
    cases rest with
    | nil => simp [emitChunkOutput, jsJoinNl]
    | cons m rest' =>
      have ih2 := ih
      simp only [emitChunkOutput, List.map_cons, jsJoinNl, List.flatten_cons,
        List.length_cons, if_pos (Nat.succ_pos _), List.append_assoc] at ih2 ⊢
      rw [ih2]

/-- Threading chunks through the transform and flushing at the end produces
the specified per-line output of the leftover followed by the chunks'
concatenation. -/
theorem runChunks_flush_spec (ts : List Char) (cs : List (List Char))
    (lo : List Char) (h : nl ∉ lo) :
    (runChunks ts lo cs).1 ++ flushOutput ts (runChunks ts lo cs).2 =
      specLineOutput ts (lo ++ cs.flatten) := by
  induction cs generalizing lo with
  | nil =>
    simp [runChunks, flushOutput, specLineOutput, splitLines_no_nl lo h]
  | cons c cs' ih =>
    have hlo2 : nl ∉ (splitLines (lo ++ c)).2 := splitLines_snd_no_nl (lo ++ c)
    have hstep := ih (splitLines (lo ++ c)).2 hlo2
    rw [runChunks]
    simp only [transformChunk]
    rw [List.append_assoc, hstep]
    rw [specLineOutput, specLineOutput]
    rw [show lo ++ (c :: cs').flatten = (lo ++ c) ++ cs'.flatten by
      simp [List.flatten_cons]]
    rw [splitLines_append (lo ++ c) cs'.flatten,
      splitLines_append (splitLines (lo ++ c)).2 cs'.flatten,
      splitLines_no_nl (splitLines (lo ++ c)).2 hlo2]
    rcases hq : (splitLines cs'.flatten).1 with _ | ⟨m, ms⟩ <;>
      simp [joinSplit, hq, emitChunkOutput_eq_flat]

/-- The post-decode text pipeline is chunking-invariant at the character
level: threading any sequence of already-decoded chunks through the
transform and flushing equals the specified per-line output of their
concatenation. -/
theorem runTransform_chars_spec (ts : List Char) (chunks : List (List Char)) :
    runTransform ts chunks = specLineOutput ts chunks.flatten := by
  have h := runChunks_flush_spec ts chunks [] (by simp)
  simpa [runTransform] using h

/-- Unfolding `utf8DecodeAux` at a start-state byte that opens a
multi-byte sequence. -/
theorem utf8DecodeAux_none_cons_inr (b : Nat) (bs : List Nat)
    (st : Nat × Nat × Nat × Nat) (h : utf8Start b = Sum.inr st) :
    utf8DecodeAux none (b :: bs) = utf8DecodeAux (some st) bs := by
  show (match utf8Start b with
        | Sum.inl ch => ch :: utf8DecodeAux none bs
        | Sum.inr st => utf8DecodeAux (some st) bs) =
      utf8DecodeAux (some st) bs
  rw [h]

/-- Unfolding `utf8DecodeAux` at a start-state byte that emits directly. -/
theorem utf8DecodeAux_none_cons_inl (b : Nat) (bs : List Nat) (ch : Char)
    (h : utf8Start b = Sum.inl ch) :
    utf8DecodeAux none (b :: bs) = ch :: utf8DecodeAux none bs := by
  show (match utf8Start b with
        | Sum.inl ch => ch :: utf8DecodeAux none bs
        | Sum.inr st => utf8DecodeAux (some st) bs) =
      ch :: utf8DecodeAux none bs
  rw [h]

/-- A valid continuation byte when more than one byte is still needed. -/
theorem utf8DecodeAux_cont_step3 (cp lower upper b : Nat) (bs : List Nat)
    (h1 : lower ≤ b) (h2 : b ≤ upper) :
    utf8DecodeAux (some (cp, 3, lower, upper)) (b :: bs) =
      utf8DecodeAux (some (cp * 64 + (b - 0x80), 2, 0x80, 0xBF)) bs := by
  simp only [utf8DecodeAux]
  rw [if_pos ⟨h1, h2⟩, if_neg (by omega)]

/-- A valid continuation byte when two bytes are still needed. -/
theorem utf8DecodeAux_cont_step2 (cp lower upper b : Nat) (bs : List Nat)
    (h1 : lower ≤ b) (h2 : b ≤ upper) :
    utf8DecodeAux (some (cp, 2, lower, upper)) (b :: bs) =
      utf8DecodeAux (some (cp * 64 + (b - 0x80), 1, 0x80, 0xBF)) bs := by
  simp only [utf8DecodeAux]
  rw [if_pos ⟨h1, h2⟩, if_neg (by omega)]

/-- A valid final continuation byte: the code point is emitted. -/
theorem utf8DecodeAux_cont_last (cp lower upper b : Nat) (bs : List Nat)
    (h1 : lower ≤ b) (h2 : b ≤ upper) :
    utf8DecodeAux (some (cp, 1, lower, upper)) (b :: bs) =
      Char.ofNat (cp * 64 + (b - 0x80)) :: utf8DecodeAux none bs := by
  simp only [utf8DecodeAux]
  rw [if_pos ⟨h1, h2⟩]
  simp

/-- Decoding the UTF-8 encoding of one character consumes exactly its
bytes and emits exactly that character, for every valid Unicode scalar
value. -/
theorem utf8DecodeAux_encodeChar (c : Char) (rest : List Nat) :
    utf8DecodeAux none (utf8EncodeChar c ++ rest) = c :: utf8DecodeAux none rest := by
  have hofn : Char.ofNat c.toNat = c := Char.ofNat_toNat c
  have hv : c.toNat < 0xd800 ∨ (0xdfff < c.toNat ∧ c.toNat < 0x110000) := c.valid
  by_cases h1 : c.toNat < 0x80
  · have he : utf8EncodeChar c = [c.toNat] := by
      unfold utf8EncodeChar
      rw [if_pos h1]
    have hs : utf8Start c.toNat = Sum.inl (Char.ofNat c.toNat) := by
      unfold utf8Start
      rw [if_pos h1]
    rw [he, List.cons_append, List.nil_append,
      utf8DecodeAux_none_cons_inl _ _ _ hs, hofn]
  · by_cases h2 : c.toNat < 0x800
    · have he : utf8EncodeChar c = [0xC0 + c.toNat / 64, 0x80 + c.toNat % 64] := by
        unfold utf8EncodeChar
        rw [if_neg h1, if_pos h2]
      have hs : utf8Start (0xC0 + c.toNat / 64) =
          Sum.inr (c.toNat / 64, 1, 0x80, 0xBF) := by
        unfold utf8Start
        rw [if_neg (by omega), if_pos (by omega),
          show 0xC0 + c.toNat / 64 - 0xC0 = c.toNat / 64 from by omega]
      rw [he, List.cons_append, List.cons_append, List.nil_append,
        utf8DecodeAux_none_cons_inr _ _ _ hs,
        utf8DecodeAux_cont_last _ _ _ _ _ (by omega) (by omega)]
      have harith : c.toNat / 64 * 64 + (0x80 + c.toNat % 64 - 0x80) = c.toNat := by
        omega
      rw [harith, hofn]
    · by_cases h3 : c.toNat < 0x10000
      · have he : utf8EncodeChar c =
            [0xE0 + c.toNat / 4096, 0x80 + (c.toNat / 64) % 64, 0x80 + c.toNat % 64] := by
          unfold utf8EncodeChar
          rw [if_neg h1, if_neg h2, if_pos h3]
        have hs : utf8Start (0xE0 + c.toNat / 4096) =
            Sum.inr (c.toNat / 4096, 2,
              if 0xE0 + c.toNat / 4096 = 0xE0 then 0xA0 else 0x80,
              if 0xE0 + c.toNat / 4096 = 0xED then 0x9F else 0xBF) := by
          unfold utf8Start
          rw [if_neg (by omega), if_neg (by omega), if_pos (by omega),
            show 0xE0 + c.toNat / 4096 - 0xE0 = c.toNat / 4096 from by omega]
        have hlow : (if 0xE0 + c.toNat / 4096 = 0xE0 then 0xA0 else 0x80) ≤
            0x80 + (c.toNat / 64) % 64 := by
          by_cases hE : 0xE0 + c.toNat / 4096 = 0xE0
          · rw [if_pos hE]
            omega
          · rw [if_neg hE]
            omega
        have hup : 0x80 + (c.toNat / 64) % 64 ≤
            (if 0xE0 + c.toNat / 4096 = 0xED then 0x9F else 0xBF) := by
          by_cases hE : 0xE0 + c.toNat / 4096 = 0xED
          · rw [if_pos hE]
            rcases hv with hv1 | hv2 <;> omega
          · rw [if_neg hE]
            omega
        rw [he, List.cons_append, List.cons_append, List.cons_append,
          List.nil_append,
          utf8DecodeAux_none_cons_inr _ _ _ hs,
          utf8DecodeAux_cont_step2 _ _ _ _ _ hlow hup,
          utf8DecodeAux_cont_last _ _ _ _ _ (by omega) (by omega)]
        have harith :
            (c.toNat / 4096 * 64 + (0x80 + c.toNat / 64 % 64 - 0x80)) * 64 +
              (0x80 + c.toNat % 64 - 0x80) = c.toNat := by
          omega
        rw [harith, hofn]
      · have h5 : c.toNat < 0x110000 := by
          rcases hv with hv1 | hv2 <;> omega
        have he : utf8EncodeChar c =
            [0xF0 + c.toNat / 262144, 0x80 + (c.toNat / 4096) % 64,
             0x80 + (c.toNat / 64) % 64, 0x80 + c.toNat % 64] := by
          unfold utf8EncodeChar
          rw [if_neg h1, if_neg h2, if_neg h3]
        have hs : utf8Start (0xF0 + c.toNat / 262144) =
            Sum.inr (c.toNat / 262144, 3,
              if 0xF0 + c.toNat / 262144 = 0xF0 then 0x90 else 0x80,
              if 0xF0 + c.toNat / 262144 = 0xF4 then 0x8F else 0xBF) := by
          unfold utf8Start
          rw [if_neg (by omega), if_neg (by omega), if_neg (by omega),
            if_pos (by omega),
            show 0xF0 + c.toNat / 262144 - 0xF0 = c.toNat / 262144 from by omega]
        have hlow : (if 0xF0 + c.toNat / 262144 = 0xF0 then 0x90 else 0x80) ≤
            0x80 + (c.toNat / 4096) % 64 := by
          by_cases hF : 0xF0 + c.toNat / 262144 = 0xF0
          · rw [if_pos hF]
            omega
          · rw [if_neg hF]
            omega
        have hup : 0x80 + (c.toNat / 4096) % 64 ≤
            (if 0xF0 + c.toNat / 262144 = 0xF4 then 0x8F else 0xBF) := by
          by_cases hF : 0xF0 + c.toNat / 262144 = 0xF4
          · rw [if_pos hF]
            omega
          · rw [if_neg hF]
            omega
        rw [he, List.cons_append, List.cons_append, List.cons_append,
          List.cons_append, List.nil_append,
          utf8DecodeAux_none_cons_inr _ _ _ hs,
          utf8DecodeAux_cont_step3 _ _ _ _ _ hlow hup,
          utf8DecodeAux_cont_step2 _ _ _ _ _ (by omega) (by omega),
          utf8DecodeAux_cont_last _ _ _ _ _ (by omega) (by omega)]
        have harith :
            ((c.toNat / 262144 * 64 + (0x80 + c.toNat / 4096 % 64 - 0x80)) * 64 +
                (0x80 + c.toNat / 64 % 64 - 0x80)) * 64 +
              (0x80 + c.toNat % 64 - 0x80) = c.toNat := by
          omega
        rw [harith, hofn]

/-- Decoding the UTF-8 encoding of a character sequence yields the
sequence back, with any further bytes decoded independently. -/
theorem utf8DecodeAux_encode (cs : List Char) (rest : List Nat) :
    utf8DecodeAux none (utf8Encode cs ++ rest) = cs ++ utf8DecodeAux none rest := by
  induction cs with
  | nil => simp [utf8Encode]
  | cons c cs ih =>
    have he : utf8Encode (c :: cs) = utf8EncodeChar c ++ utf8Encode cs := by
      simp [utf8Encode]
    rw [he, List.append_assoc, utf8DecodeAux_encodeChar, ih, List.cons_append]

/-- The UTF-8 round trip on character sequences. -/
theorem utf8Decode_utf8Encode (cs : List Char) : utf8Decode (utf8Encode cs) = cs := by
  have h := utf8DecodeAux_encode cs []
  rw [show utf8DecodeAux none ([] : List Nat) = [] from rfl, List.append_nil,
    List.append_nil] at h
  exact h

/-- Feeding byte chunks is feeding their individual decodes to the text
pipeline. -/
theorem runChunksBytes_eq (ts : List Char) (chunks : List (List Nat)) (lo : List Char) :
    runChunksBytes ts lo chunks = runChunks ts lo (chunks.map utf8Decode) := by
  induction chunks generalizing lo with
  | nil => rfl
  | cons c cs ih => simp [runChunksBytes, runChunks, transformChunkBytes, ih]

/-- Encoding chunk-wise and concatenating is encoding the concatenation. -/
theorem flatten_map_utf8Encode (charChunks : List (List Char)) :
    (charChunks.map utf8Encode).flatten = utf8Encode charChunks.flatten := by
  induction charChunks with
  | nil => rfl
  | cons c cs ih =>
    simp only [List.map_cons, List.flatten_cons, ih, utf8Encode,
      List.map_append, List.flatten_append]

/-- Claim C9, counterexample: the same byte sequence `C3 A9 0A` (the
two-byte encoding of one non-ASCII character followed by a newline),
delivered whole versus partitioned between the two bytes of the character,
produces different output lines — each chunk is decoded in isolation by
`chunk.toString()`, so the split encoding becomes two replacement
characters.  The transform is therefore not chunking-invariant over byte
sequences. -/
theorem utf8_split_changes_output :
    ([0xC3, 0xA9, 0x0A] : List Nat) = [0xC3] ++ [0xA9, 0x0A] ∧
    runTransformBytes (("[t] ").toList) [[0xC3, 0xA9, 0x0A]] ≠
      runTransformBytes (("[t] ").toList) [[0xC3], [0xA9, 0x0A]] := by
  exact ⟨rfl, by decide⟩

/-- Claim C9, amended: for every input byte sequence that is a valid UTF-8
encoding and every partition of it into chunks at character boundaries
(each chunk the encoding of a character sequence), the transform produces
the same output lines up to the timestamp values: every complete line of
the decoded input prefixed with the timestamp, a trailing partial line
buffered across chunks, and on close any buffered tail emitted as one
final timestamped line.  The first conjunct states that the concatenated
byte input decodes to the concatenated character input the right-hand side
is phrased over. -/
theorem transform_chunking_invariant_char_boundaries (ts : List Char)
    (charChunks : List (List Char)) :
    utf8Decode ((charChunks.map utf8Encode).flatten) = charChunks.flatten ∧
    runTransformBytes ts (charChunks.map utf8Encode) =
      specLineOutput ts charChunks.flatten := by
  constructor
  · rw [flatten_map_utf8Encode, utf8Decode_utf8Encode]
  · have hb : runTransformBytes ts (charChunks.map utf8Encode) =
        runTransform ts ((charChunks.map utf8Encode).map utf8Decode) := by
      unfold runTransformBytes runTransform
      rw [runChunksBytes_eq]
    rw [hb, List.map_map]
    have hdec : charChunks.map (utf8Decode ∘ utf8Encode) = charChunks := by
      have hpt : ∀ x ∈ charChunks, (utf8Decode ∘ utf8Encode) x = id x :=
        fun x _ => utf8Decode_utf8Encode x
      rw [List.map_congr_left hpt, List.map_id]
    rw [hdec, runTransform_chars_spec]

end ServerLauncher
